import Mathlib

/-!
Verification of the GitHub-to-Discord push relay (`src/main.py`).

Python strings are embedded as `List Char` (`Str`), raw request bodies as
`List Nat` (byte values), JSON values as the inductive `Json`, and the
dynamic (exception-raising) operations of the source as `Except PyErr`
computations.  The Flask endpoint, the HMAC signature verifier, the embed
formatter and the queue/worker pipeline are each translated below next to
the line numbers of the source they come from.
-/

/-- Python strings are lists of characters. -/
abbrev Str : Type := List Char

/-- Python truthiness of a string: non-empty strings are truthy. -/
def strTruthy : Str → Bool
  | [] => false
  | _ :: _ => true

/-- Python truthiness of an optional string: `None` and `""` are falsy. -/
def optStrTruthy : Option Str → Bool
  | none => false
  | some s => strTruthy s

/-- Does `s` start with `p`? -/
def strStartsWith : Str → Str → Bool
  | [], _ => true
  | _ :: _, [] => false
  | p :: ps, c :: cs => p = c && strStartsWith ps cs

/-- Python substring containment: `p in s` for strings. -/
def strContainsSub (p : Str) : Str → Bool
  | [] => strStartsWith p []
  | c :: cs => strStartsWith p (c :: cs) || strContainsSub p cs

/-- Python `s.split(c)` for a one-character separator: the list of chunks
between occurrences of `c`, always non-empty. -/
def pySplitChar (c : Char) : Str → List Str
  | [] => [[]]
  | x :: xs =>
    let r := pySplitChar c xs
    if x = c then [] :: r else (x :: r.headD []) :: r.tail

/-- Decimal rendering of a natural number as a Python string. -/
def natStr (n : Nat) : Str := (toString n).data

theorem pySplitChar_ne_nil (c : Char) (s : Str) : pySplitChar c s ≠ [] := by
  cases s with
  | nil => simp [pySplitChar]
  | cons x xs =>
    simp only [pySplitChar]
    split <;> simp

theorem pySplitChar_headD (c : Char) (s : Str) :
    (pySplitChar c s).headD [] = s.takeWhile (fun x => x != c) := by
  induction s with
  | nil => rfl
  | cons x xs ih =>
    simp only [pySplitChar]
    by_cases h : x = c
    · subst h
      simp [List.takeWhile_cons]
    · rw [if_neg h]
      show x :: (pySplitChar c xs).headD [] = _
      rw [List.takeWhile_cons, ih]
      simp [h]

theorem pySplitChar_of_not_mem (c : Char) (s : Str) (h : c ∉ s) :
    pySplitChar c s = [s] := by
  induction s with
  | nil => rfl
  | cons x xs ih =>
    simp only [List.mem_cons, not_or] at h
    simp only [pySplitChar, ih h.2]
    rw [if_neg (fun hx => h.1 hx.symm)]
    simp

theorem pySplitChar_length_ge_two (c : Char) (s : Str) (h : c ∈ s) :
    2 ≤ (pySplitChar c s).length := by
  induction s with
  | nil => cases h
  | cons x xs ih =>
    simp only [pySplitChar]
    by_cases hx : x = c
    · rw [if_pos hx]
      have := pySplitChar_ne_nil c xs
      have : 1 ≤ (pySplitChar c xs).length := by
        cases hq : pySplitChar c xs with
        | nil => exact absurd hq this
        | cons a l => simp
      simp only [List.length_cons]
      omega
    · rw [if_neg hx]
      have hm : c ∈ xs := by
        rcases List.mem_cons.mp h with h1 | h1
        · exact absurd h1.symm hx
        · exact h1
      have h2 := ih hm
      have : (pySplitChar c xs).length = (pySplitChar c xs).tail.length + 1 := by
        cases hq : pySplitChar c xs with
        | nil => exact absurd hq (pySplitChar_ne_nil c xs)
        | cons a l => simp
      simp only [List.length_cons]
      omega

theorem pySplitChar_getLastD_cons (c : Char) (x : Char) (xs : Str) (h : c ∈ xs) :
    (pySplitChar c (x :: xs)).getLastD [] = (pySplitChar c xs).getLastD [] := by
  simp only [pySplitChar]
  by_cases hx : x = c
  · rw [if_pos hx]
    cases hq : pySplitChar c xs with
    | nil => exact absurd hq (pySplitChar_ne_nil c xs)
    | cons a l => simp [List.getLastD_cons]
  · rw [if_neg hx]
    have h2 := pySplitChar_length_ge_two c xs h
    cases hq : pySplitChar c xs with
    | nil => exact absurd hq (pySplitChar_ne_nil c xs)
    | cons a l =>
      cases l with
      | nil => rw [hq] at h2; simp at h2
      | cons b l2 => simp [List.getLastD_cons]

theorem pySplitChar_getLastD_append (c : Char) (a B : Str) (h : c ∉ B) :
    (pySplitChar c (a ++ c :: B)).getLastD [] = B := by
  induction a with
  | nil =>
    simp only [List.nil_append, pySplitChar, if_pos rfl]
    rw [pySplitChar_of_not_mem c B h]
    simp [List.getLastD_cons]
  | cons x xs ih =>
    have hmem : c ∈ xs ++ c :: B := List.mem_append_right _ (List.mem_cons_self c B)
    rw [List.cons_append, pySplitChar_getLastD_cons c x (xs ++ c :: B) hmem, ih]

theorem strStartsWith_append (p t : Str) : strStartsWith p (p ++ t) = true := by
  induction p with
  | nil => rfl
  | cons x xs ih => simp [strStartsWith, ih]

theorem strContainsSub_single_iff (c : Char) (s : Str) :
    strContainsSub [c] s = true ↔ c ∈ s := by
  induction s with
  | nil => simp [strContainsSub, strStartsWith]
  | cons x xs ih =>
    simp only [strContainsSub, strStartsWith, Bool.or_eq_true, Bool.and_eq_true,
      decide_eq_true_eq, List.mem_cons]
    constructor
    · rintro (⟨h1, _⟩ | h1)
      · exact Or.inl h1
      · exact Or.inr (ih.mp h1)
    · rintro (h1 | h1)
      · exact Or.inl ⟨h1, trivial⟩
      · exact Or.inr (ih.mpr h1)

/-! ## HMAC-SHA256 (behaviour of `hmac`/`hashlib` as used in `verify_signature`) -/

/-- Reduce a natural number to a 32-bit word. -/
def w32 (n : Nat) : Nat := n % 4294967296

/-- 32-bit right rotation. -/
def rotr32 (k n : Nat) : Nat := w32 ((n >>> k) ||| (n <<< (32 - k)))

/-- SHA-256 small sigma 0. -/
def sSig0 (x : Nat) : Nat := (rotr32 7 x) ^^^ (rotr32 18 x) ^^^ (x >>> 3)

/-- SHA-256 small sigma 1. -/
def sSig1 (x : Nat) : Nat := (rotr32 17 x) ^^^ (rotr32 19 x) ^^^ (x >>> 10)

/-- SHA-256 big sigma 0. -/
def bSig0 (x : Nat) : Nat := (rotr32 2 x) ^^^ (rotr32 13 x) ^^^ (rotr32 22 x)

/-- SHA-256 big sigma 1. -/
def bSig1 (x : Nat) : Nat := (rotr32 6 x) ^^^ (rotr32 11 x) ^^^ (rotr32 25 x)

/-- The 64 SHA-256 round constants. -/
def sha256K : List Nat :=
  [1116352408, 1899447441, 3049323471, 3921009573, 961987163,
   1508970993, 2453635748, 2870763221, 3624381080, 310598401,
   607225278, 1426881987, 1925078388, 2162078206, 2614888103,
   3248222580, 3835390401, 4022224774, 264347078, 604807628,
   770255983, 1249150122, 1555081692, 1996064986, 2554220882,
   2821834349, 2952996808, 3210313671, 3336571891, 3584528711,
   113926993, 338241895, 666307205, 773529912, 1294757372,
   1396182291, 1695183700, 1986661051, 2177026350, 2456956037,
   2730485921, 2820302411, 3259730800, 3345764771, 3516065817,
   3600352804, 4094571909, 275423344, 430227734, 506948616,
   659060556, 883997877, 958139571, 1322822218, 1537002063,
   1747873779, 1955562222, 2024104815, 2227730452, 2361852424,
   2428436474, 2756734187, 3204031479, 3329325298]

/-- The SHA-256 initial hash state. -/
def sha256H0 : List Nat :=
  [1779033703, 3144134277, 1013904242, 2773480762, 1359893119,
   2600822924, 528734635, 1541459225]

/-- Group bytes into 32-bit big-endian words. -/
def bytesToWords : List Nat → List Nat
  | b0 :: b1 :: b2 :: b3 :: rest => (((b0 * 256 + b1) * 256 + b2) * 256 + b3) :: bytesToWords rest
  | _ => []

/-- Extend 16 message words to the 64-word SHA-256 schedule. -/
def buildSchedule (w16 : List Nat) : List Nat :=
  (List.range 48).foldl
    (fun ws i =>
      ws ++ [w32 (sSig1 (ws.getD (i + 14) 0) + ws.getD (i + 9) 0 + sSig0 (ws.getD (i + 1) 0) +
        ws.getD i 0)])
    w16

/-- One SHA-256 compression round on the 8-word working state. -/
def compressRound (st : List Nat) (kw : Nat × Nat) : List Nat :=
  match st with
  | [a, b, c, d, e, f, g, h] =>
    let ch := (e &&& f) ^^^ ((e ^^^ 4294967295) &&& g)
    let maj := (a &&& b) ^^^ (a &&& c) ^^^ (b &&& c)
    let t1 := w32 (h + bSig1 e + ch + kw.1 + kw.2)
    let t2 := w32 (bSig0 a + maj)
    [w32 (t1 + t2), a, b, c, w32 (d + t1), e, f, g]
  | other => other

/-- Process one 64-byte chunk, updating the 8-word hash state. -/
def processChunk (hs : List Nat) (chunk : List Nat) : List Nat :=
  let ws := buildSchedule (bytesToWords chunk)
  let st := (sha256K.zip ws).foldl compressRound hs
  (hs.zip st).map (fun p => w32 (p.1 + p.2))

/-- Split a byte list into 64-byte chunks. -/
def chunks64 : List Nat → List (List Nat)
  | [] => []
  | x :: rest => ((x :: rest).take 64) :: chunks64 ((x :: rest).drop 64)
termination_by l => l.length
decreasing_by
  simp only [List.drop, List.length_drop, List.length_cons]
  omega

/-- Big-endian bytes of `n`, `k` bytes wide. -/
def beBytes : Nat → Nat → List Nat
  | 0, _ => []
  | k + 1, n => ((n >>> (8 * k)) % 256) :: beBytes k n

/-- SHA-256 of a byte string, as 32 digest bytes. -/
def sha256 (msg : List Nat) : List Nat :=
  let padded := msg ++ 128 :: (List.replicate ((119 - msg.length % 64) % 64) 0 ++
    beBytes 8 (8 * msg.length))
  let hs := (chunks64 padded).foldl processChunk sha256H0
  hs.foldr (fun h acc => beBytes 4 h ++ acc) []

/-- HMAC-SHA256 with byte-string key and message (RFC 2104). -/
def hmacSha256 (key msg : List Nat) : List Nat :=
  let k1 := if 64 < key.length then sha256 key else key
  let k2 := k1 ++ List.replicate (64 - k1.length) 0
  sha256 ((k2.map (fun b => b ^^^ 92)) ++ sha256 ((k2.map (fun b => b ^^^ 54)) ++ msg))

/-- Lowercase hexadecimal digit character. -/
def hexChar (n : Nat) : Char := if n < 10 then Char.ofNat (48 + n) else Char.ofNat (87 + n)

/-- Lowercase hexadecimal rendering of a digest (Python `hexdigest()`). -/
def hexDigest (bytes : List Nat) : Str :=
  bytes.foldr (fun b acc => hexChar (b / 16) :: hexChar (b % 16) :: acc) []

/-- UTF-8 encoding of one character (Python `str.encode('utf-8')`). -/
def utf8Char (c : Char) : List Nat :=
  let n := c.toNat
  if n < 128 then [n]
  else if n < 2048 then [192 + n / 64, 128 + n % 64]
  else if n < 65536 then [224 + n / 4096, 128 + (n / 64) % 64, 128 + n % 64]
  else [240 + n / 262144, 128 + (n / 4096) % 64, 128 + (n / 64) % 64, 128 + n % 64]

/-- UTF-8 encoding of a string. -/
def utf8 (s : Str) : List Nat := s.foldr (fun c acc => utf8Char c ++ acc) []

/-- Constant-time string comparison `hmac.compare_digest`: functionally, equality. -/
def compare_digest (a b : Str) : Bool := a == b

/-- Signature verifier, translated from `verify_signature` (src/main.py lines 47-59):
bypasses when the secret or the provided header is falsy, otherwise compares
`"sha256=" + hexdigest` of the HMAC-SHA256 of the raw body against the header. -/
def verify_signature (payload_body : List Nat) (secret_token : Str)
    (signature_header : Option Str) : Bool :=
  if strTruthy secret_token = false || optStrTruthy signature_header = false then
    true
  else
    compare_digest ("sha256=".data ++ hexDigest (hmacSha256 (utf8 secret_token) payload_body))
      (signature_header.getD [])

/-! ## JSON values and Python dynamic operations -/

/-- JSON values as delivered by Flask's `request.get_json`. -/
inductive Json where
  | null
  | bool (b : Bool)
  | num (n : Int)
  | str (s : Str)
  | arr (elems : List Json)
  | obj (fields : List (Str × Json))

/-- Python exceptions that the translated operations can raise. -/
inductive PyErr where
  | attributeError
  | typeError
deriving DecidableEq

/-- Python message text of an exception (`str(e)`). -/
def pyErrMsg : PyErr → Str
  | .attributeError => "AttributeError".data
  | .typeError => "TypeError".data

/-- First binding of a key in a JSON object's field list. -/
def lookupF : List (Str × Json) → Str → Option Json
  | [], _ => none
  | (k, v) :: rest, key => if k = key then some v else lookupF rest key

/-- Python truthiness of a JSON value. -/
def pyTruthy : Json → Bool
  | .null => false
  | .bool b => b
  | .num n => n != 0
  | .str s => strTruthy s
  | .arr xs => !xs.isEmpty
  | .obj fs => !fs.isEmpty

/-- Exception-propagating bind on `Except PyErr`. -/
def ebind {α β : Type} : Except PyErr α → (α → Except PyErr β) → Except PyErr β
  | .error e, _ => .error e
  | .ok a, f => f a

theorem ebind_ok {α β : Type} (a : α) (f : α → Except PyErr β) :
    ebind (.ok a) f = f a := rfl

theorem ebind_error {α β : Type} (e : PyErr) (f : α → Except PyErr β) :
    ebind (.error e) f = .error e := rfl

theorem ebind_ok_inv {α β : Type} {x : Except PyErr α} {f : α → Except PyErr β}
    {b : β} (h : ebind x f = .ok b) : ∃ a, x = .ok a ∧ f a = .ok b := by
  cases x with
  | error e => exact absurd h (by simp [ebind])
  | ok a => exact ⟨a, rfl, h⟩

/-- Python `v.get(key, default)`: raises `AttributeError` unless `v` is a dict. -/
def pyGet (v : Json) (key : Str) (default : Json) : Except PyErr Json :=
  match v with
  | .obj fs => .ok ((lookupF fs key).getD default)
  | _ => .error .attributeError

/-- Python `len(v)`: defined for strings, lists and dicts. -/
def pyLen (v : Json) : Except PyErr Nat :=
  match v with
  | .str s => .ok s.length
  | .arr xs => .ok xs.length
  | .obj fs => .ok fs.length
  | _ => .error .typeError

/-- Python `v[:n]`: slicing is defined for strings and lists. -/
def pySliceTo (n : Nat) (v : Json) : Except PyErr Json :=
  match v with
  | .str s => .ok (.str (s.take n))
  | .arr xs => .ok (.arr (xs.take n))
  | _ => .error .typeError

/-- Python iteration over `v`: strings yield 1-character strings, lists their
elements, dicts their keys. -/
def pyIter (v : Json) : Except PyErr (List Json) :=
  match v with
  | .str s => .ok (s.map (fun c => .str [c]))
  | .arr xs => .ok xs
  | .obj fs => .ok (fs.map (fun p => .str p.1))
  | _ => .error .typeError

/-- Python `needle in v` for a string needle: substring test on strings,
membership on lists (string elements only compare equal), key test on dicts. -/
def pyContains (needle : Str) (v : Json) : Except PyErr Bool :=
  match v with
  | .str s => .ok (strContainsSub needle s)
  | .arr xs => .ok (xs.any (fun x => match x with | .str s => s == needle | _ => false))
  | .obj fs => .ok (fs.any (fun p => p.1 == needle))
  | _ => .error .typeError

/-- Python `v.split(c)`: raises unless `v` is a string. -/
def pyStrSplit (c : Char) (v : Json) : Except PyErr (List Str) :=
  match v with
  | .str s => .ok (pySplitChar c s)
  | _ => .error .attributeError

mutual

/-- Python `repr` of a JSON value (simplified string quoting). -/
def pyRepr : Json → Str
  | .null => "None".data
  | .bool true => "True".data
  | .bool false => "False".data
  | .num n => (toString n).data
  | .str s => Char.ofNat 39 :: (s ++ [Char.ofNat 39])
  | .arr xs => Char.ofNat 91 :: (pyReprList xs ++ [Char.ofNat 93])
  | .obj fs => Char.ofNat 123 :: (pyReprFields fs ++ [Char.ofNat 125])

/-- Comma-separated `repr`s of list elements. -/
def pyReprList : List Json → Str
  | [] => []
  | [x] => pyRepr x
  | x :: y :: rest => pyRepr x ++ (", ".data ++ pyReprList (y :: rest))

/-- Comma-separated `key: value` `repr`s of dict entries. -/
def pyReprFields : List (Str × Json) → Str
  | [] => []
  | [(k, v)] => pyRepr (.str k) ++ (": ".data ++ pyRepr v)
  | (k, v) :: y :: rest =>
    pyRepr (.str k) ++ (": ".data ++ pyRepr v) ++ (", ".data ++ pyReprFields (y :: rest))

end

/-- Python `str(v)` as used by f-string interpolation. -/
def pyStrOf : Json → Str
  | .str s => s
  | .null => "None".data
  | .bool true => "True".data
  | .bool false => "False".data
  | .num n => (toString n).data
  | .arr xs => pyRepr (.arr xs)
  | .obj fs => pyRepr (.obj fs)

/-- Map a fallible function over a list, stopping at the first exception. -/
def exceptMapM {α β : Type} (f : α → Except PyErr β) : List α → Except PyErr (List β)
  | [] => .ok []
  | x :: xs => ebind (f x) fun y => ebind (exceptMapM f xs) fun ys => .ok (y :: ys)

/-! ## The Discord embed built by `process_github_push` (src/main.py lines 184-266) -/

/-- One `embed.add_field` entry. -/
structure EmbedField where
  name : Str
  value : Str
  inlineFlag : Bool
deriving DecidableEq

/-- The Discord embed constructed for a push.  String-typed components come
from f-strings; `url`, `authorName` and `authorIcon` receive raw payload
values.  `timestamp` is the `datetime.now()` instant at formatting time. -/
structure Embed where
  title : Str
  description : Str
  color : Nat
  timestamp : Nat
  url : Json
  authorName : Json
  authorIcon : Json
  fields : List EmbedField
  footer : Str

/-- First line of a commit message: `message.split('\n')[0]` (line 232). -/
def firstLine (s : Str) : Str := (pySplitChar (Char.ofNat 10) s).headD []

/-- Length cap on the displayed commit message (lines 235-236). -/
def truncate80 (s : Str) : Str :=
  if 80 < s.length then s.take 77 ++ "...".data else s

/-- Markdown neutralisation (line 239): backticks become apostrophes and
asterisks are removed. -/
def escapeMd (s : Str) : Str :=
  (s.map (fun c => if c = Char.ofNat 96 then Char.ofNat 39 else c)).filter
    (fun c => c != Char.ofNat 42)

/-- The displayed text of one commit message (lines 232-239). -/
def renderMsg (s : Str) : Str := escapeMd (truncate80 (firstLine s))

/-- The repository link field (lines 215-219). -/
def repoField (fullName htmlUrl : Json) : EmbedField :=
  ⟨"Repositório".data,
   "[".data ++ (pyStrOf fullName ++ ("](".data ++ (pyStrOf htmlUrl ++ ")".data))), true⟩

/-- The compare link field (lines 222-227), shown when the payload has a
`compare` key. -/
def compareField (data : Json) : EmbedField :=
  ⟨"Comparar".data,
   "[Ver alterações](".data ++
     (pyStrOf ((lookupF (match data with | .obj fs => fs | _ => []) ("compare".data)).getD
       .null) ++ ")".data), true⟩

/-- The trailing extra-commits field (lines 250-255) for `n` total commits. -/
def moreField (n : Nat) : EmbedField :=
  ⟨"Mais commits".data, "+".data ++ (natStr (n - 3) ++ " commits adicionais".data), false⟩

/-- The embed field built for one commit (lines 230-247). -/
def commitField (commit : Json) : Except PyErr EmbedField :=
  ebind (pyGet commit ("id".data) (.str [])) fun idv =>
  ebind (pySliceTo 7 idv) fun shortSha =>
  ebind (pyGet commit ("message".data) (.str [])) fun msgv =>
  ebind (pyStrSplit (Char.ofNat 10) msgv) fun lines =>
  ebind (pyGet commit ("author".data) (.obj [])) fun authorv =>
  ebind (pyGet authorv ("name".data) (.str ("Unknown".data))) fun aname =>
  ebind (pyGet commit ("url".data) (.str [])) fun urlv =>
  Except.ok
    { name := "Commit `".data ++ (pyStrOf shortSha ++ ("` por ".data ++ pyStrOf aname))
      value := escapeMd (truncate80 (lines.headD [])) ++
        ("\n[Ver commit](".data ++ (pyStrOf urlv ++ ")".data))
      inlineFlag := false }

/-- Embed construction from the push payload (lines 192-257), with the
formatting instant `now` passed explicitly for `datetime.now()`.  Any Python
exception raised while reading the payload is propagated as `.error`. -/
def buildEmbed (now : Nat) (data : Json) : Except PyErr Embed :=
  ebind (pyGet data ("repository".data) (.obj [])) fun repo =>
  ebind (pyGet data ("pusher".data) (.obj [])) fun pusher =>
  ebind (pyGet data ("commits".data) (.arr [])) fun commits =>
  ebind (pyGet data ("ref".data) (.str [])) fun ref =>
  ebind (pyContains ("/".data) ref) fun hasSlash =>
  ebind (if hasSlash then
           ebind (pyStrSplit (Char.ofNat 47) ref) fun parts => .ok (Json.str (parts.getLastD []))
         else .ok ref) fun branch =>
  ebind (pyGet repo ("full_name".data) (.str ("Unknown".data))) fun fullName =>
  ebind (pyLen commits) fun nCommits =>
  ebind (pyGet repo ("html_url".data) (.str [])) fun htmlUrl =>
  ebind (pyGet pusher ("name".data) (.str ("Unknown".data))) fun authorName =>
  ebind (pyGet pusher ("avatar_url".data) (.str [])) fun avatarUrl =>
  ebind (pyContains ("compare".data) data) fun hasCompare =>
  ebind (pySliceTo 3 commits) fun sliced =>
  ebind (pyIter sliced) fun commitList =>
  ebind (exceptMapM commitField commitList) fun commitFs =>
  Except.ok
    { title := "📦 Push em ".data ++ pyStrOf fullName
      description := "**Branch:** `".data ++ (pyStrOf branch ++ ("`\n**Commits:** ".data ++
        natStr nCommits))
      color := 0x2ecc71
      timestamp := now
      url := htmlUrl
      authorName := authorName
      authorIcon := avatarUrl
      fields :=
        [repoField fullName htmlUrl]
        ++ (if hasCompare then [compareField data] else [])
        ++ commitFs
        ++ (if 3 < nCommits then [moreField nCommits] else [])
      footer := "Push por ".data ++ pyStrOf authorName }

/-- Is this field one of the per-commit fields (name starts with `Commit` and
a backtick)? -/
def isCommitFieldB (f : EmbedField) : Bool := strStartsWith ("Commit `".data) f.name

/-- Is this field the trailing extra-commits field? -/
def isMoreFieldB (f : EmbedField) : Bool := f.name == "Mais commits".data

/-- Timestamp of a successfully built embed. -/
def embedTimestampOf : Except PyErr Embed → Option Nat
  | .ok e => some e.timestamp
  | .error _ => none

/-- Title of a successfully built embed. -/
def embedTitleOf : Except PyErr Embed → Option Str
  | .ok e => some e.title
  | .error _ => none

/-- Author name of a successfully built embed. -/
def embedAuthorOf : Except PyErr Embed → Option Json
  | .ok e => some e.authorName
  | .error _ => none

/-- Number of per-commit fields of a successfully built embed. -/
def embedCommitFieldCountOf : Except PyErr Embed → Option Nat
  | .ok e => some ((e.fields.filter isCommitFieldB).length)
  | .error _ => none

/-- Did embed construction succeed? -/
def isOkE {α : Type} : Except PyErr α → Bool
  | .ok _ => true
  | .error _ => false

/-- What happened to one queue item inside `process_github_push`. -/
inductive PushOutcome where
  | channelMissing
  | sent (e : Embed)
  | sendFailed (e : Embed)
  | formatError (err : PyErr)

/-- `process_github_push` (lines 184-266): returns early when the channel is
unresolved; otherwise builds the embed and sends it.  Every exception —
formatting or `channel.send` — is caught by the `except` clauses, so the
coroutine always returns normally; the outcome records what happened.
`sendFails` models whether the external `channel.send` call raises. -/
def process_github_push (now : Nat) (channelFound sendFails : Bool) (data : Json) :
    PushOutcome :=
  if channelFound = false then .channelMissing
  else
    match buildEmbed now data with
    | .error err => .formatError err
    | .ok e => if sendFails then .sendFailed e else .sent e

/-- Did processing produce and deliver a message? -/
def outcomeSent : PushOutcome → Bool
  | .sent _ => true
  | _ => false

/-! ## Branch derivation (src/main.py lines 122 and 196) -/

/-- Branch derivation from line 196 for a string ref:
`ref.split('/')[-1] if '/' in ref else ref`. -/
def branchOfRef (ref : Str) : Str :=
  if strContainsSub ("/".data) ref then (pySplitChar (Char.ofNat 47) ref).getLastD []
  else ref

/-! ## The webhook endpoint (src/main.py lines 61-132) and the event queue -/

/-- An item of `push_queue` as enqueued at lines 112-116:
`{'event': 'push', 'data': data, 'received_at': now}`. -/
structure QueueItem where
  event : Str
  data : Json
  received_at : Nat

/-- An HTTP response: status code and JSON body. -/
structure WebhookResponse where
  statusCode : Nat
  body : Json

/-- Python `event_type == name` where the header may be absent (`None`). -/
def isEvent (eventType : Option Str) (name : Str) : Bool :=
  match eventType with
  | none => false
  | some s => s == name

/-- A JSON error body `{'error': msg}`. -/
def errBody (msg : Str) : Json := .obj [("error".data, .str msg)]

/-- The POST arm of `github_webhook` (lines 73-132).  Inputs: the configured
secret, the `X-GitHub-Event` and `X-Hub-Signature-256` headers (absent =
`none`), the raw body bytes, the result `parsed` of Flask's
`request.get_json(silent=True)` on that body (`none` when the body is not
parseable JSON), the current clock `now`, and the queue contents.  Returns
the response and the new queue contents; the surrounding `try/except`
turns any exception into a 500 response. -/
def github_webhook_post (secret : Str) (eventType : Option Str) (signature : Option Str)
    (rawBody : List Nat) (parsed : Option Json) (now : Nat) (queue : List QueueItem) :
    WebhookResponse × List QueueItem :=
  if verify_signature rawBody secret signature then
    if isEvent eventType ("ping".data) then
      let dataJ : Json := match parsed with
        | none => .obj []
        | some v => if pyTruthy v then v else .obj []
      match pyGet dataJ ("zen".data) (.str ("No zen message".data)) with
      | .error e => (⟨500, errBody (pyErrMsg e)⟩, queue)
      | .ok zen =>
        (⟨200, .obj [("status".data, .str ("pong".data)), ("zen".data, zen),
          ("event".data, .str ("ping".data)), ("timestamp".data, .num now)]⟩, queue)
    else if isEvent eventType ("push".data) then
      match parsed with
      | none => (⟨400, errBody ("No JSON data".data)⟩, queue)
      | some d =>
        if pyTruthy d = false then (⟨400, errBody ("No JSON data".data)⟩, queue)
        else
          match pyGet d ("ref".data) (.str ("unknown".data)) with
          | .error e => (⟨500, errBody (pyErrMsg e)⟩, queue)
          | .ok ref =>
            match ebind (pyGet d ("repository".data) (.obj [])) fun r =>
                pyGet r ("full_name".data) (.str ("unknown".data)) with
            | .error e => (⟨500, errBody (pyErrMsg e)⟩, queue)
            | .ok repoName =>
              let queue' := queue ++ [⟨"push".data, d, now⟩]
              match pyStrSplit (Char.ofNat 47) ref with
              | .error e => (⟨500, errBody (pyErrMsg e)⟩, queue')
              | .ok parts =>
                (⟨200, .obj [("status".data, .str ("received".data)),
                  ("event".data, .str ("push".data)), ("repository".data, repoName),
                  ("branch".data, .str (parts.getLastD [])),
                  ("queued".data, .bool true)]⟩, queue')
    else
      (⟨200, .obj [("status".data, .str ("ignored".data)),
        ("event".data, match eventType with | none => .null | some s => .str s)]⟩, queue)
  else
    (⟨401, errBody ("Invalid signature".data)⟩, queue)

/-! ## Producer/consumer state machine (push_queue, line 37; worker, lines 160-182) -/

/-- Inputs of one webhook POST. -/
structure WebhookInput where
  secret : Str
  eventType : Option Str
  signature : Option Str
  rawBody : List Nat
  parsed : Option Json
  now : Nat

/-- Queue contents after one webhook POST. -/
def postQueue (i : WebhookInput) (q : List QueueItem) : List QueueItem :=
  (github_webhook_post i.secret i.eventType i.signature i.rawBody i.parsed i.now q).2

/-- The environment of one worker delivery: the clock, whether
`bot.get_channel` resolves, and whether `channel.send` raises. -/
structure WorkerEnv where
  now : Nat
  channelFound : Bool
  sendFails : Bool

/-- Worker handling of one dequeued item (lines 170-175): only `'push'`
items are processed; either way the item is dropped from the queue. -/
def processItem (env : WorkerEnv) (it : QueueItem) : Option PushOutcome :=
  if it.event == "push".data then
    some (process_github_push env.now env.channelFound env.sendFails it.data)
  else none

/-- Global state: the queue contents, the full enqueue history in order, and
the delivered (dequeued) items in order with their outcomes. -/
structure QState where
  queued : List QueueItem
  history : List QueueItem
  delivered : List (QueueItem × Option PushOutcome)

/-- One step of the pipeline: either an HTTP handler thread runs one webhook
POST (`push_queue.put`, line 112), or the worker dequeues and processes the
front item (`push_queue.get`, lines 170-175).  `Queue` is FIFO, so the worker
always removes the front. -/
inductive QStep : QState → QState → Prop where
  | webhook (i : WebhookInput) {s : QState} :
      QStep s ⟨postQueue i s.queued,
               s.history ++ (postQueue i s.queued).drop s.queued.length,
               s.delivered⟩
  | deliver (env : WorkerEnv) (it : QueueItem) (rest : List QueueItem) {s : QState}
      (h : s.queued = it :: rest) :
      QStep s ⟨rest, s.history, s.delivered ++ [(it, processItem env it)]⟩

/-- States reachable from the empty initial state. -/
inductive Reachable : QState → Prop where
  | init : Reachable ⟨[], [], []⟩
  | step {s s' : QState} : Reachable s → QStep s s' → Reachable s'

/-- The attempts the worker makes when draining a queue, one per item, with
the environment of the n-th delivery given by `envs n`. -/
def attempts (envs : Nat → WorkerEnv) : List QueueItem → List (QueueItem × Option PushOutcome)
  | [] => []
  | it :: rest => (it, processItem (envs 0) it) :: attempts (fun n => envs (n + 1)) rest

/-! ## Demonstration values -/

/-- A well-formed commit object as sent by GitHub. -/
def demoCommit : Json :=
  .obj [("id".data, .str ("abc123def456".data)),
        ("message".data, .str ("Fix the widget\n\nLonger body.".data)),
        ("url".data, .str ("https://example.test/commit/abc123".data)),
        ("author".data, .obj [("name".data, .str ("alice".data))])]

/-- A well-formed push payload. -/
def demoPayload : Json :=
  .obj [("ref".data, .str ("refs/heads/main".data)),
        ("repository".data, .obj [("full_name".data, .str ("octo/repo".data)),
                                  ("html_url".data, .str ("https://example.test/repo".data))]),
        ("pusher".data, .obj [("name".data, .str ("alice".data))]),
        ("commits".data, .arr [demoCommit]),
        ("compare".data, .str ("https://example.test/compare".data))]

/-- A webhook input that enqueues `demoPayload` (no secret configured). -/
def demoInput : WebhookInput := ⟨[], some ("push".data), none, [], some demoPayload, 5⟩

/-- The queue item produced by `demoInput`. -/
def demoItem : QueueItem := ⟨"push".data, demoPayload, 5⟩

/-- A worker environment whose `channel.send` raises. -/
def demoEnvFail : WorkerEnv := ⟨9, true, true⟩

/-! ## C1: signature verification -/

/-- C1 (code bug): with a configured secret and the `X-Hub-Signature-256`
header absent, `verify_signature` returns `True` — the `not signature_header`
disjunct at line 49 bypasses verification — so the endpoint accepts and
processes the unauthenticated request instead of rejecting it with 401 as the
claim requires. -/
theorem verify_signature_missing_header_bypass :
    strTruthy ("topsecret".data) = true ∧
    verify_signature [] ("topsecret".data) none = true ∧
    verify_signature [] ("topsecret".data) (some []) = true ∧
    (github_webhook_post ("topsecret".data) (some ("push".data)) none [] (some demoPayload)
      5 []).1.statusCode = 200 ∧
    (github_webhook_post ("topsecret".data) (some ("push".data)) none [] (some demoPayload)
      5 []).2 = [⟨"push".data, demoPayload, 5⟩] :=
  ⟨rfl, rfl, rfl, rfl, rfl⟩

/-! ## C2: FIFO ordering -/

theorem postQueue_extends (i : WebhookInput) (q : List QueueItem) :
    ∃ delta, postQueue i q = q ++ delta := by
  unfold postQueue github_webhook_post
  by_cases hv : verify_signature i.rawBody i.secret i.signature = true
  · simp only [if_pos hv]
    by_cases hping : isEvent i.eventType ("ping".data) = true
    · simp only [if_pos hping]
      cases hp : i.parsed with
      | none => exact ⟨[], by simp [pyGet]⟩
      | some v =>
        cases hpt : pyTruthy v with
        | false => exact ⟨[], by simp [hpt, pyGet]⟩
        | true =>
          simp only [hpt, if_true]
          cases hz : pyGet v ("zen".data) (.str ("No zen message".data)) with
          | error e => exact ⟨[], by simp⟩
          | ok zen => exact ⟨[], by simp⟩
    · simp only [if_neg hping]
      by_cases hpush : isEvent i.eventType ("push".data) = true
      · simp only [if_pos hpush]
        cases hp : i.parsed with
        | none => exact ⟨[], by simp⟩
        | some d =>
          by_cases hpt : pyTruthy d = false
          · exact ⟨[], by simp [hpt]⟩
          · simp only [if_neg hpt]
            cases href : pyGet d ("ref".data) (.str ("unknown".data)) with
            | error e => exact ⟨[], by simp⟩
            | ok ref =>
              cases hrepo : ebind (pyGet d ("repository".data) (.obj [])) (fun r =>
                  pyGet r ("full_name".data) (.str ("unknown".data))) with
              | error e => exact ⟨[], by simp⟩
              | ok repoName =>
                cases hsplit : pyStrSplit (Char.ofNat 47) ref with
                | error e => exact ⟨[⟨"push".data, d, i.now⟩], by simp [hsplit]⟩
                | ok parts => exact ⟨[⟨"push".data, d, i.now⟩], by simp [hsplit]⟩
      · simp only [if_neg hpush]
        exact ⟨[], by simp⟩
  · simp only [if_neg hv]
    exact ⟨[], by simp⟩

/-- Each pipeline step preserves the FIFO invariant. -/
theorem qstep_fifo_invariant {s s' : QState} (hstep : QStep s s')
    (ih : s.delivered.map Prod.fst ++ s.queued = s.history) :
    s'.delivered.map Prod.fst ++ s'.queued = s'.history := by
  cases hstep with
  | webhook i =>
    obtain ⟨delta, hdelta⟩ := postQueue_extends i s.queued
    show s.delivered.map Prod.fst ++ postQueue i s.queued =
      s.history ++ (postQueue i s.queued).drop s.queued.length
    rw [hdelta, List.drop_left, ← List.append_assoc, ih]
  | deliver env it rest hrest =>
    show (s.delivered ++ [(it, processItem env it)]).map Prod.fst ++ rest = s.history
    rw [List.map_append, List.append_assoc]
    simp only [List.map_cons, List.map_nil, List.singleton_append]
    rw [← hrest, ih]

/-- C2: in every reachable state of the producer/consumer step relation, the
items delivered so far followed by the items still queued are exactly the
enqueue history in order — the worker dequeues and delivers in exactly the
order the webhook endpoint enqueued, with no reordering. -/
theorem queue_fifo_order : ∀ s : QState, Reachable s →
    s.delivered.map Prod.fst ++ s.queued = s.history := by
  intro s h
  induction h with
  | init => rfl
  | step hq hstep ih => exact qstep_fifo_invariant hstep ih

/-- Witness for C2 at a concrete two-step execution (one webhook enqueue,
one delivery whose send fails). -/
theorem queue_fifo_order_witness :
    [(demoItem, processItem demoEnvFail demoItem)].map Prod.fst ++ ([] : List QueueItem) =
      [demoItem] := by
  have h1 : Reachable ⟨[demoItem], [demoItem], []⟩ :=
    Reachable.step Reachable.init (QStep.webhook demoInput)
  have h2 : Reachable ⟨[], [demoItem], [(demoItem, processItem demoEnvFail demoItem)]⟩ :=
    Reachable.step h1 (QStep.deliver demoEnvFail demoItem [] rfl)
  exact queue_fifo_order _ h2

/-! ## C3: per-item failure isolation and queue draining -/

theorem attempts_get? (envs : Nat → WorkerEnv) (qs : List QueueItem) :
    ∀ n, (attempts envs qs).get? n =
      (qs.get? n).map (fun it => (it, processItem (envs n) it)) := by
  induction qs generalizing envs with
  | nil => intro n; simp [attempts]
  | cons it rest ih =>
    intro n
    cases n with
    | zero => simp [attempts]
    | succ m => simpa [attempts] using ih (fun n => envs (n + 1)) m

theorem reachable_drain (qs : List QueueItem) :
    ∀ (envs : Nat → WorkerEnv) (s : QState), Reachable s → s.queued = qs →
      Reachable ⟨[], s.history, s.delivered ++ attempts envs qs⟩ := by
  induction qs with
  | nil =>
    intro envs s hr hq
    have h1 : attempts envs [] = [] := rfl
    rw [h1, List.append_nil, ← hq]
    exact hr
  | cons it rest ih =>
    intro envs s hr hq
    have hstep : QStep s ⟨rest, s.history, s.delivered ++ [(it, processItem (envs 0) it)]⟩ :=
      QStep.deliver (envs 0) it rest hq
    have hr' := Reachable.step hr hstep
    have h2 := ih (fun n => envs (n + 1)) _ hr' rfl
    have h3 : attempts envs (it :: rest) =
        (it, processItem (envs 0) it) :: attempts (fun n => envs (n + 1)) rest := rfl
    rw [h3, List.append_cons]
    exact h2

/-- C3: from any reachable state the worker can always drain the whole queue,
one legal step per item, regardless of which sends fail: the final state has
an empty queue and an unchanged history (failed items are dropped, never
requeued), and the n-th formerly queued item is attempted with its own
environment — so every item after a failing one is still processed. -/
theorem delivery_failure_isolation :
    ∀ (envs : Nat → WorkerEnv) (s : QState), Reachable s →
      Reachable ⟨[], s.history, s.delivered ++ attempts envs s.queued⟩ ∧
      (∀ n, (attempts envs s.queued).get? n =
        (s.queued.get? n).map (fun it => (it, processItem (envs n) it))) := by
  intro envs s hr
  exact ⟨reachable_drain s.queued envs s hr rfl, attempts_get? envs s.queued⟩

/-- Witness for C3: a queue holding one item whose send raises still drains
to the empty queue by a legal step, and the item is attempted. -/
theorem delivery_failure_isolation_witness :
    Reachable ⟨[], [demoItem], [] ++ attempts (fun _ => demoEnvFail) [demoItem]⟩ ∧
    (attempts (fun _ => demoEnvFail) [demoItem]).get? 0 =
      ([demoItem].get? 0).map (fun it => (it, processItem demoEnvFail it)) := by
  have h1 : Reachable ⟨[demoItem], [demoItem], []⟩ :=
    Reachable.step Reachable.init (QStep.webhook demoInput)
  have h := delivery_failure_isolation (fun _ => demoEnvFail) ⟨[demoItem], [demoItem], []⟩ h1
  exact ⟨h.1, h.2 0⟩

/-! ## C5: branch derivation -/

/-- C5 counterexample: for the ref `refs/heads/feature/x`, whose branch name
`feature/x` contains a slash, line 196 derives `x` — the segment after the
last slash — not the `refs/heads/`-stripped `feature/x` the claim states. -/
theorem branch_derivation_counterexample :
    "refs/heads/feature/x".data = "refs/heads/".data ++ "feature/x".data ∧
    branchOfRef ("refs/heads/feature/x".data) = "x".data ∧
    branchOfRef ("refs/heads/feature/x".data) ≠ "feature/x".data := by
  refine ⟨rfl, rfl, ?_⟩
  decide

/-- C5 amended: the derived branch is the segment of the ref after the last
slash; for a ref `refs/heads/B` this equals `B` exactly when `B` itself
contains no slash, and a ref without any slash is used unchanged. -/
theorem branch_derivation_amended :
    (∀ B : Str, Char.ofNat 47 ∉ B → branchOfRef ("refs/heads/".data ++ B) = B) ∧
    (∀ s : Str, strContainsSub ("/".data) s = false → branchOfRef s = s) := by
  constructor
  · intro B hB
    have hmem : Char.ofNat 47 ∈ "refs/heads/".data ++ B :=
      List.mem_append.mpr (Or.inl (by decide))
    have hcontains : strContainsSub ("/".data) ("refs/heads/".data ++ B) = true := by
      have hs : "/".data = [Char.ofNat 47] := by decide
      rw [hs]
      exact (strContainsSub_single_iff _ _).mpr hmem
    unfold branchOfRef
    rw [if_pos hcontains]
    have heq : "refs/heads/".data ++ B = "refs/heads".data ++ (Char.ofNat 47 :: B) := rfl
    rw [heq]
    exact pySplitChar_getLastD_append (Char.ofNat 47) ("refs/heads".data) B hB
  · intro s hs
    unfold branchOfRef
    rw [hs]
    simp

/-- Witness for C5 (amended): `refs/heads/main` derives branch `main`. -/
theorem branch_derivation_witness :
    branchOfRef ("refs/heads/main".data) = "main".data :=
  branch_derivation_amended.1 ("main".data) (by decide)

/-! ## C7: commit message rendering -/

theorem escapeMd_no_bad_chars (s : Str) :
    ∀ c ∈ escapeMd s, c ≠ Char.ofNat 96 ∧ c ≠ Char.ofNat 42 := by
  intro c hc
  obtain ⟨hmem, hne⟩ := List.mem_filter.mp hc
  have h42 : c ≠ Char.ofNat 42 := by simpa using hne
  obtain ⟨a, _, hval⟩ := List.mem_map.mp hmem
  refine ⟨?_, h42⟩
  by_cases h : a = Char.ofNat 96
  · rw [if_pos h] at hval
    rw [← hval]
    decide
  · rw [if_neg h] at hval
    rw [← hval]
    exact h

theorem firstLine_no_newline (m : Str) : ∀ x ∈ firstLine m, x ≠ Char.ofNat 10 := by
  intro x hx
  unfold firstLine at hx
  rw [pySplitChar_headD] at hx
  have := List.mem_takeWhile_imp hx
  simpa using this

theorem renderMsg_no_newline (m : Str) : ∀ c ∈ renderMsg m, c ≠ Char.ofNat 10 := by
  intro c hc
  obtain ⟨hmem, _⟩ := List.mem_filter.mp hc
  obtain ⟨a, ha, hval⟩ := List.mem_map.mp hmem
  have ha10 : a ≠ Char.ofNat 10 := by
    unfold truncate80 at ha
    by_cases hlen : 80 < (firstLine m).length
    · rw [if_pos hlen] at ha
      rcases List.mem_append.mp ha with h1 | h1
      · exact firstLine_no_newline m a (List.mem_of_mem_take h1)
      · have h2 : a ∈ [Char.ofNat 46, Char.ofNat 46, Char.ofNat 46] := h1
        simp only [List.mem_cons, List.not_mem_nil, or_false] at h2
        rcases h2 with h3 | h3 | h3 <;> (subst h3; decide)
    · rw [if_neg hlen] at ha
      exact firstLine_no_newline m a ha
  by_cases h : a = Char.ofNat 96
  · rw [if_pos h] at hval
    rw [← hval]
    decide
  · rw [if_neg h] at hval
    rw [← hval]
    exact ha10

theorem escapeMd_append (a b : Str) : escapeMd (a ++ b) = escapeMd a ++ escapeMd b := by
  unfold escapeMd
  rw [List.map_append, List.filter_append]

/-- C7: for every commit message, the displayed text is derived from the
first line only (it contains no newline), backtick and asterisk characters
never survive unescaped, a first line at or under the 80-character bound is
kept whole apart from escaping, and a longer one is cut to 77 characters and
marked with the `...` ellipsis; this rendered text is exactly what
`commitField` places in the field value. -/
theorem commit_message_truncation :
    ∀ m : Str,
      (∀ c ∈ renderMsg m, c ≠ Char.ofNat 96 ∧ c ≠ Char.ofNat 42 ∧ c ≠ Char.ofNat 10) ∧
      ((firstLine m).length ≤ 80 → renderMsg m = escapeMd (firstLine m)) ∧
      (80 < (firstLine m).length →
        renderMsg m = escapeMd ((firstLine m).take 77) ++ "...".data) ∧
      (∀ cf f, lookupF cf ("message".data) = some (.str m) →
        commitField (.obj cf) = .ok f →
        ∃ rest, f.value = renderMsg m ++ ("\n[Ver commit](".data ++ rest)) := by
  intro m
  refine ⟨?_, ?_, ?_, ?_⟩
  · intro c hc
    obtain ⟨h96, h42⟩ := escapeMd_no_bad_chars (truncate80 (firstLine m)) c hc
    exact ⟨h96, h42, renderMsg_no_newline m c hc⟩
  · intro h
    unfold renderMsg truncate80
    rw [if_neg (by omega)]
  · intro h
    unfold renderMsg truncate80
    rw [if_pos h, escapeMd_append]
    rfl
  · intro cf f hlook hcf
    unfold commitField at hcf
    obtain ⟨idv, hid, hcf⟩ := ebind_ok_inv hcf
    obtain ⟨shortSha, hsha, hcf⟩ := ebind_ok_inv hcf
    obtain ⟨msgv, hmsg, hcf⟩ := ebind_ok_inv hcf
    obtain ⟨lines, hlines, hcf⟩ := ebind_ok_inv hcf
    obtain ⟨authorv, hauth, hcf⟩ := ebind_ok_inv hcf
    obtain ⟨aname, hname, hcf⟩ := ebind_ok_inv hcf
    obtain ⟨urlv, hurl, hcf⟩ := ebind_ok_inv hcf
    simp only [pyGet, hlook, Option.getD_some, Except.ok.injEq] at hmsg
    subst hmsg
    simp only [pyStrSplit, Except.ok.injEq] at hlines
    subst hlines
    cases hcf
    exact ⟨pyStrOf urlv ++ ")".data, rfl⟩

/-- A first line of 90 characters containing markdown characters. -/
def demoLongMsg : Str :=
  "*`aaaaaaaaaaaaaaaaaaaaaaaaaaaaaaaaaaaaaaaaaaaaaaaaaaaaaaaaaaaaaaaaaaaaaaaaaaaaaaaaaaaa".data

/-- Witness for C7: a 88-character first line is cut at 77 characters and
marked with an ellipsis. -/
theorem commit_message_truncation_witness :
    80 < (firstLine demoLongMsg).length ∧
    renderMsg demoLongMsg = escapeMd ((firstLine demoLongMsg).take 77) ++ "...".data :=
  ⟨by decide, (commit_message_truncation demoLongMsg).2.2.1 (by decide)⟩

/-! ## C4: determinism of formatting -/

/-- Two embed computations agree except for the formatting timestamp. -/
def AgreeExceptTime (t₁ t₂ : Nat) : Except PyErr Embed → Except PyErr Embed → Prop
  | .error a, .error b => a = b
  | .ok e₁, .ok e₂ =>
      e₁.timestamp = t₁ ∧ e₂.timestamp = t₂ ∧ e₁.title = e₂.title ∧
      e₁.description = e₂.description ∧ e₁.color = e₂.color ∧ e₁.url = e₂.url ∧
      e₁.authorName = e₂.authorName ∧ e₁.authorIcon = e₂.authorIcon ∧
      e₁.fields = e₂.fields ∧ e₁.footer = e₂.footer
  | _, _ => False

theorem agreeExceptTime_ebind {α : Type} (t₁ t₂ : Nat) (x : Except PyErr α)
    (f g : α → Except PyErr Embed) (h : ∀ a, AgreeExceptTime t₁ t₂ (f a) (g a)) :
    AgreeExceptTime t₁ t₂ (ebind x f) (ebind x g) := by
  cases x with
  | error e => simp [ebind, AgreeExceptTime]
  | ok a => exact h a

theorem buildEmbed_agreeExceptTime (t₁ t₂ : Nat) (data : Json) :
    AgreeExceptTime t₁ t₂ (buildEmbed t₁ data) (buildEmbed t₂ data) := by
  unfold buildEmbed
  apply agreeExceptTime_ebind; intro repo
  apply agreeExceptTime_ebind; intro pusher
  apply agreeExceptTime_ebind; intro commits
  apply agreeExceptTime_ebind; intro ref
  apply agreeExceptTime_ebind; intro hasSlash
  apply agreeExceptTime_ebind; intro branch
  apply agreeExceptTime_ebind; intro fullName
  apply agreeExceptTime_ebind; intro nCommits
  apply agreeExceptTime_ebind; intro htmlUrl
  apply agreeExceptTime_ebind; intro authorName
  apply agreeExceptTime_ebind; intro avatarUrl
  apply agreeExceptTime_ebind; intro hasCompare
  apply agreeExceptTime_ebind; intro sliced
  apply agreeExceptTime_ebind; intro commitList
  apply agreeExceptTime_ebind; intro commitFs
  exact ⟨rfl, rfl, rfl, rfl, rfl, rfl, rfl, rfl, rfl, rfl⟩

/-- C4 counterexample: the formatter stamps `datetime.now()` into the embed
(line 203), so two runs of the pipeline on the identical payload at different
instants yield different `Message` structures — they differ in the timestamp
component. -/
theorem format_determinism_counterexample :
    embedTimestampOf (buildEmbed 0 demoPayload) = some 0 ∧
    embedTimestampOf (buildEmbed 1 demoPayload) = some 1 ∧
    buildEmbed 0 demoPayload ≠ buildEmbed 1 demoPayload := by
  refine ⟨rfl, rfl, fun h => ?_⟩
  have h2 : (some 0 : Option Nat) = some 1 :=
    calc (some 0 : Option Nat)
        = embedTimestampOf (buildEmbed 0 demoPayload) := rfl
      _ = embedTimestampOf (buildEmbed 1 demoPayload) := congrArg embedTimestampOf h
      _ = some 1 := rfl
  simp at h2

/-- C4 amended: the pipeline is deterministic in everything except the embed
timestamp, which records the formatting instant: two successful runs on the
identical payload agree on the title, description, colour, url, author block,
fields and footer, and each run's timestamp is its own formatting instant. -/
theorem format_determinism_amended :
    ∀ (t₁ t₂ : Nat) (data : Json) (e₁ e₂ : Embed),
      buildEmbed t₁ data = .ok e₁ → buildEmbed t₂ data = .ok e₂ →
      e₁.timestamp = t₁ ∧ e₂.timestamp = t₂ ∧ e₁.title = e₂.title ∧
      e₁.description = e₂.description ∧ e₁.color = e₂.color ∧ e₁.url = e₂.url ∧
      e₁.authorName = e₂.authorName ∧ e₁.authorIcon = e₂.authorIcon ∧
      e₁.fields = e₂.fields ∧ e₁.footer = e₂.footer := by
  intro t₁ t₂ data e₁ e₂ h₁ h₂
  have h := buildEmbed_agreeExceptTime t₁ t₂ data
  rw [h₁, h₂] at h
  exact h

/-- A default embed used to project successful results. -/
def defaultEmbed : Embed := ⟨[], [], 0, 0, .null, .null, .null, [], []⟩

/-- Project the embed out of a successful computation. -/
def embedOr (d : Embed) : Except PyErr Embed → Embed
  | .ok e => e
  | .error _ => d

/-- The embed built for `demoPayload` at instant 3. -/
def demoEmbed3 : Embed := embedOr defaultEmbed (buildEmbed 3 demoPayload)

/-- Witness for C4 (amended) at the fixed instant 3 on `demoPayload`. -/
theorem format_determinism_witness :
    demoEmbed3.timestamp = 3 ∧ demoEmbed3.timestamp = 3 ∧
    demoEmbed3.title = demoEmbed3.title ∧ demoEmbed3.description = demoEmbed3.description ∧
    demoEmbed3.color = demoEmbed3.color ∧ demoEmbed3.url = demoEmbed3.url ∧
    demoEmbed3.authorName = demoEmbed3.authorName ∧
    demoEmbed3.authorIcon = demoEmbed3.authorIcon ∧
    demoEmbed3.fields = demoEmbed3.fields ∧ demoEmbed3.footer = demoEmbed3.footer :=
  format_determinism_amended 3 3 demoPayload demoEmbed3 demoEmbed3 rfl rfl

/-! ## C8: unparsable push body -/

/-- C8: for every POST carrying event type `push` that passes signature
verification, an unparsable body (`request.get_json(silent=True)` returning
`None`) yields status 400 with body `{'error': 'No JSON data'}` and leaves
the queue unchanged — the parse failure is resolved at the ingestion
boundary and nothing is enqueued. -/
theorem push_unparsable_json_400 :
    ∀ (secret : Str) (signature : Option Str) (rawBody : List Nat) (now : Nat)
      (queue : List QueueItem),
      verify_signature rawBody secret signature = true →
      github_webhook_post secret (some ("push".data)) signature rawBody none now queue =
        (⟨400, errBody ("No JSON data".data)⟩, queue) := by
  intro secret signature rawBody now queue h
  unfold github_webhook_post
  rw [h]
  rfl

/-- Witness for C8 with no secret configured. -/
theorem push_unparsable_json_400_witness :
    github_webhook_post [] (some ("push".data)) none [] none 7 [] =
      (⟨400, errBody ("No JSON data".data)⟩, []) :=
  push_unparsable_json_400 [] none [] 7 [] rfl

/-! ## C10: ping never 400, queue untouched -/

/-- C10: for every POST carrying event type `ping` the queue is never touched
and the status is never 400; and whenever the request passes signature
verification and the body is missing or unparsable, the endpoint still
answers 200 with status `pong` and the placeholder zen message
`No zen message`. -/
theorem ping_robust_200 :
    ∀ (secret : Str) (eventType : Option Str) (signature : Option Str)
      (rawBody : List Nat) (parsed : Option Json) (now : Nat) (queue : List QueueItem),
      eventType = some ("ping".data) →
      ((github_webhook_post secret eventType signature rawBody parsed now queue).2 = queue ∧
        (github_webhook_post secret eventType signature rawBody parsed now queue).1.statusCode
          ≠ 400) ∧
      (verify_signature rawBody secret signature = true → parsed = none →
        github_webhook_post secret eventType signature rawBody parsed now queue =
          (⟨200, .obj [("status".data, .str ("pong".data)),
            ("zen".data, .str ("No zen message".data)),
            ("event".data, .str ("ping".data)), ("timestamp".data, .num now)]⟩, queue)) := by
  intro secret eventType signature rawBody parsed now queue hev
  subst hev
  cases hv : verify_signature rawBody secret signature with
  | false =>
    unfold github_webhook_post
    rw [hv]
    refine ⟨⟨rfl, ?_⟩, fun hc _ => Bool.noConfusion hc⟩
    show (401 : Nat) ≠ 400
    decide
  | true =>
    unfold github_webhook_post
    rw [hv]
    have hpp : isEvent (some ("ping".data)) ("ping".data) = true := rfl
    refine ⟨?_, ?_⟩
    · cases parsed with
      | none =>
        refine ⟨rfl, ?_⟩
        show (200 : Nat) ≠ 400
        decide
      | some v =>
        cases hpt : pyTruthy v with
        | false =>
          constructor
          · simp [hpt, pyGet, hpp]
          · simp [hpt, pyGet, hpp]
        | true =>
          cases hz : pyGet v ("zen".data) (.str ("No zen message".data)) with
          | error e =>
            constructor
            · simp [hpt, hz, hpp]
            · simp [hpt, hz, hpp]
          | ok zen =>
            constructor
            · simp [hpt, hz, hpp]
            · simp [hpt, hz, hpp]
    · intro _ hp
      subst hp
      rfl

/-- Witness for C10: a ping with no body and no secret configured. -/
theorem ping_robust_200_witness :
    (github_webhook_post [] (some ("ping".data)) none [] none 7 []).2 =
      ([] : List QueueItem) ∧
    github_webhook_post [] (some ("ping".data)) none [] none 7 [] =
      (⟨200, .obj [("status".data, .str ("pong".data)),
        ("zen".data, .str ("No zen message".data)),
        ("event".data, .str ("ping".data)), ("timestamp".data, .num 7)]⟩, []) := by
  have h := ping_robust_200 [] (some ("ping".data)) none [] none 7 [] rfl
  exact ⟨h.1.1, h.2 rfl rfl⟩

/-! ## C6: commit display cap -/

theorem exceptMapM_ok_inv {α β : Type} {f : α → Except PyErr β} :
    ∀ {l : List α} {out : List β}, exceptMapM f l = .ok out →
      out.length = l.length ∧ ∀ y ∈ out, ∃ x ∈ l, f x = .ok y := by
  intro l
  induction l with
  | nil =>
    intro out h
    unfold exceptMapM at h
    injection h with h
    subst h
    exact ⟨rfl, fun y hy => absurd hy (List.not_mem_nil y)⟩
  | cons x xs ih =>
    intro out h
    unfold exceptMapM at h
    obtain ⟨y, hy, h⟩ := ebind_ok_inv h
    obtain ⟨ys, hys, h⟩ := ebind_ok_inv h
    injection h with h
    subst h
    obtain ⟨hlen, hall⟩ := ih hys
    refine ⟨by simp [hlen], ?_⟩
    intro z hz
    rcases List.mem_cons.mp hz with hz | hz
    · exact ⟨x, List.mem_cons_self x xs, by rw [hz]; exact hy⟩
    · obtain ⟨a, ha, hfa⟩ := hall z hz
      exact ⟨a, List.mem_cons_of_mem x ha, hfa⟩

theorem commitField_name {c : Json} {f : EmbedField} (h : commitField c = .ok f) :
    isCommitFieldB f = true := by
  unfold commitField at h
  obtain ⟨idv, _, h1⟩ := ebind_ok_inv h
  obtain ⟨shortSha, _, h2⟩ := ebind_ok_inv h1
  obtain ⟨msgv, _, h3⟩ := ebind_ok_inv h2
  obtain ⟨lines, _, h4⟩ := ebind_ok_inv h3
  obtain ⟨authorv, _, h5⟩ := ebind_ok_inv h4
  obtain ⟨aname, _, h6⟩ := ebind_ok_inv h5
  obtain ⟨urlv, _, h7⟩ := ebind_ok_inv h6
  simp only [Except.ok.injEq] at h7
  subst h7
  exact strStartsWith_append _ _

theorem commitField_not_more {f : EmbedField} (h : isCommitFieldB f = true) :
    isMoreFieldB f = false := by
  unfold isMoreFieldB
  cases hb : f.name == ("Mais commits".data) with
  | false => rfl
  | true =>
    have hn : f.name = "Mais commits".data := by
      exact eq_of_beq hb
    unfold isCommitFieldB at h
    rw [hn] at h
    exact absurd h (by decide)

/-- C6: whenever the payload carries a commit list of length `N`, a
successfully built embed renders exactly `min 3 N` individual commit fields;
the trailing extra-commits field is present exactly when `N > 3`, reads
`+(N-3) commits adicionais`, and is the last field of the embed. -/
theorem commit_display_cap :
    ∀ (now : Nat) (data : Json) (cs : List Json) (e : Embed),
      pyGet data ("commits".data) (.arr []) = .ok (.arr cs) →
      buildEmbed now data = .ok e →
      (e.fields.filter isCommitFieldB).length = min 3 cs.length ∧
      ((e.fields.filter isMoreFieldB).map EmbedField.value =
        if 3 < cs.length then
          ["+".data ++ (natStr (cs.length - 3) ++ " commits adicionais".data)] else []) ∧
      (3 < cs.length → (e.fields.getLast?).map EmbedField.name =
        some ("Mais commits".data)) := by
  intro now data cs e hcommits h0
  unfold buildEmbed at h0
  obtain ⟨repo, hrepo, h1⟩ := ebind_ok_inv h0
  obtain ⟨pusher, hpusher, h2⟩ := ebind_ok_inv h1
  obtain ⟨commitsv, hcv, h3⟩ := ebind_ok_inv h2
  obtain ⟨ref, href, h4⟩ := ebind_ok_inv h3
  obtain ⟨hasSlash, hhs, h5⟩ := ebind_ok_inv h4
  obtain ⟨branch, hbr, h6⟩ := ebind_ok_inv h5
  obtain ⟨fullName, hfn, h7⟩ := ebind_ok_inv h6
  obtain ⟨nCommits, hnc, h8⟩ := ebind_ok_inv h7
  obtain ⟨htmlUrl, hhu, h9⟩ := ebind_ok_inv h8
  obtain ⟨authorName, han, h10⟩ := ebind_ok_inv h9
  obtain ⟨avatarUrl, hav, h11⟩ := ebind_ok_inv h10
  obtain ⟨hasCompare, hhc, h12⟩ := ebind_ok_inv h11
  obtain ⟨sliced, hsl, h13⟩ := ebind_ok_inv h12
  obtain ⟨commitList, hcl, h14⟩ := ebind_ok_inv h13
  obtain ⟨commitFs, hcf, h⟩ := ebind_ok_inv h14
  rw [hcommits] at hcv
  injection hcv with hcv
  subst hcv
  simp only [pyLen, Except.ok.injEq] at hnc
  subst hnc
  simp only [pySliceTo, Except.ok.injEq] at hsl
  subst hsl
  simp only [pyIter, Except.ok.injEq] at hcl
  subst hcl
  obtain ⟨hlen, hall⟩ := exceptMapM_ok_inv hcf
  have hallC : ∀ g ∈ commitFs, isCommitFieldB g = true := by
    intro g hg
    obtain ⟨c, _, hc⟩ := hall g hg
    exact commitField_name hc
  have hallM : ∀ g ∈ commitFs, ¬ (isMoreFieldB g = true) := by
    intro g hg hgm
    rw [commitField_not_more (hallC g hg)] at hgm
    exact Bool.noConfusion hgm
  simp only [Except.ok.injEq] at h
  subst h
  dsimp only
  have e1 : List.filter isCommitFieldB [repoField fullName htmlUrl] = [] := rfl
  have e2 : List.filter isCommitFieldB (if hasCompare = true then [compareField data] else [])
      = [] := by
    cases hasCompare <;> rfl
  have e3 : List.filter isCommitFieldB commitFs = commitFs :=
    List.filter_eq_self.mpr hallC
  have e4 : List.filter isCommitFieldB
      (if 3 < cs.length then [moreField cs.length] else []) = [] := by
    by_cases hm : 3 < cs.length
    · rw [if_pos hm]
      rfl
    · rw [if_neg hm]
      rfl
  have m1 : List.filter isMoreFieldB [repoField fullName htmlUrl] = [] := rfl
  have m2 : List.filter isMoreFieldB (if hasCompare = true then [compareField data] else [])
      = [] := by
    cases hasCompare <;> rfl
  have m3 : List.filter isMoreFieldB commitFs = [] :=
    List.filter_eq_nil_iff.mpr hallM
  refine ⟨?_, ?_, ?_⟩
  · rw [List.filter_append, List.filter_append, List.filter_append, e1, e2, e3, e4]
    simp only [List.nil_append, List.append_nil]
    rw [hlen, List.length_take]
  · rw [List.filter_append, List.filter_append, List.filter_append, m1, m2, m3]
    by_cases hm : 3 < cs.length
    · rw [if_pos hm, if_pos hm]
      rfl
    · rw [if_neg hm, if_neg hm]
      rfl
  · intro hm
    rw [if_pos hm, List.getLast?_concat]
    rfl

/-- A payload carrying seven commits. -/
def demo7Payload : Json :=
  .obj [("ref".data, .str ("refs/heads/main".data)),
        ("commits".data, .arr [demoCommit, demoCommit, demoCommit, demoCommit,
                               demoCommit, demoCommit, demoCommit])]

/-- The commit list of `demo7Payload`. -/
def demo7Commits : List Json :=
  [demoCommit, demoCommit, demoCommit, demoCommit, demoCommit, demoCommit, demoCommit]

/-- The embed built for `demo7Payload`. -/
def demo7Embed : Embed := embedOr defaultEmbed (buildEmbed 0 demo7Payload)

/-- Witness for C6: seven commits yield exactly three commit fields and a
trailing `+4 commits adicionais` field. -/
theorem commit_display_cap_witness :
    (demo7Embed.fields.filter isCommitFieldB).length = 3 ∧
    (demo7Embed.fields.filter isMoreFieldB).map EmbedField.value =
      ["+4 commits adicionais".data] ∧
    (demo7Embed.fields.getLast?).map EmbedField.name = some ("Mais commits".data) := by
  have h := commit_display_cap 0 demo7Payload demo7Commits demo7Embed rfl rfl
  refine ⟨h.1, ?_, h.2.2 (by decide)⟩
  have h2 := h.2.1
  rw [if_pos (by decide : 3 < demo7Commits.length)] at h2
  rw [h2]
  decide

/-! ## C9: totality on GitHub-shaped payloads -/

/-- A field that, when present, is a JSON object. -/
def objOrAbsent : Option Json → Bool
  | none => true
  | some (.obj _) => true
  | some _ => false

/-- A field that, when present, is a JSON string. -/
def strOrAbsent : Option Json → Bool
  | none => true
  | some (.str _) => true
  | some _ => false

/-- A commit entry of the GitHub shape: an object whose `id` and `message`
are strings when present and whose `author` is an object when present. -/
def commitShaped : Json → Bool
  | .obj cf =>
      strOrAbsent (lookupF cf ("id".data)) && strOrAbsent (lookupF cf ("message".data)) &&
        objOrAbsent (lookupF cf ("author".data))
  | _ => false

/-- A commits field of the GitHub shape: absent, or a list whose first three
entries (the only ones the formatter inspects) are commit-shaped. -/
def commitsShaped : Option Json → Bool
  | none => true
  | some (.arr cs) => (cs.take 3).all commitShaped
  | some _ => false

/-- A GitHub-shaped push payload object: `repository`, `pusher`, `commits`
and `ref` may each be absent, and carry the GitHub types when present. -/
def githubShaped (fs : List (Str × Json)) : Bool :=
  objOrAbsent (lookupF fs ("repository".data)) && objOrAbsent (lookupF fs ("pusher".data)) &&
    commitsShaped (lookupF fs ("commits".data)) && strOrAbsent (lookupF fs ("ref".data))

theorem objOrAbsent_getD {ov : Option Json} (h : objOrAbsent ov = true) :
    ∃ o, ov.getD (.obj []) = Json.obj o := by
  cases ov with
  | none => exact ⟨[], rfl⟩
  | some v =>
    cases v with
    | obj o => exact ⟨o, rfl⟩
    | null => simp [objOrAbsent] at h
    | bool b => simp [objOrAbsent] at h
    | num n => simp [objOrAbsent] at h
    | str s => simp [objOrAbsent] at h
    | arr a => simp [objOrAbsent] at h

theorem strOrAbsent_getD {ov : Option Json} (h : strOrAbsent ov = true) :
    ∃ s, ov.getD (.str []) = Json.str s := by
  cases ov with
  | none => exact ⟨[], rfl⟩
  | some v =>
    cases v with
    | str s => exact ⟨s, rfl⟩
    | null => simp [strOrAbsent] at h
    | bool b => simp [strOrAbsent] at h
    | num n => simp [strOrAbsent] at h
    | obj o => simp [strOrAbsent] at h
    | arr a => simp [strOrAbsent] at h

theorem commitsShaped_getD {ov : Option Json} (h : commitsShaped ov = true) :
    ∃ cs, ov.getD (.arr []) = Json.arr cs ∧ (cs.take 3).all commitShaped = true := by
  cases ov with
  | none => exact ⟨[], rfl, rfl⟩
  | some v =>
    cases v with
    | arr cs => exact ⟨cs, rfl, h⟩
    | null => simp [commitsShaped] at h
    | bool b => simp [commitsShaped] at h
    | num n => simp [commitsShaped] at h
    | str s => simp [commitsShaped] at h
    | obj o => simp [commitsShaped] at h

theorem pyGet_obj (o : List (Str × Json)) (k : Str) (d : Json) :
    pyGet (Json.obj o) k d = .ok ((lookupF o k).getD d) := rfl

theorem pyLen_arr (xs : List Json) : pyLen (Json.arr xs) = .ok xs.length := rfl

theorem pySliceTo_arr (n : Nat) (xs : List Json) :
    pySliceTo n (Json.arr xs) = .ok (Json.arr (xs.take n)) := rfl

theorem pySliceTo_str (n : Nat) (s : Str) :
    pySliceTo n (Json.str s) = .ok (Json.str (s.take n)) := rfl

theorem pyIter_arr (xs : List Json) : pyIter (Json.arr xs) = .ok xs := rfl

theorem pyContains_str (p s : Str) :
    pyContains p (Json.str s) = .ok (strContainsSub p s) := rfl

theorem pyContains_obj (p : Str) (o : List (Str × Json)) :
    pyContains p (Json.obj o) = .ok (o.any (fun q => q.1 == p)) := rfl

theorem pyStrSplit_str (c : Char) (s : Str) :
    pyStrSplit c (Json.str s) = .ok (pySplitChar c s) := rfl

theorem isOkE_exists {α : Type} {x : Except PyErr α} (h : isOkE x = true) :
    ∃ a, x = .ok a := by
  cases x with
  | ok a => exact ⟨a, rfl⟩
  | error e => exact absurd h (by simp [isOkE])

theorem commitField_ok {c : Json} (h : commitShaped c = true) :
    ∃ f, commitField c = .ok f := by
  cases c with
  | obj cf =>
    simp only [commitShaped, Bool.and_eq_true] at h
    obtain ⟨⟨hid, hmsg⟩, hauth⟩ := h
    obtain ⟨idS, hidS⟩ := strOrAbsent_getD hid
    obtain ⟨mS, hmS⟩ := strOrAbsent_getD hmsg
    obtain ⟨aF, haF⟩ := objOrAbsent_getD hauth
    apply isOkE_exists
    simp only [commitField, pyGet_obj, ebind_ok, hidS, pySliceTo_str, hmS, pyStrSplit_str,
      haF, isOkE]
  | null => simp [commitShaped] at h
  | bool b => simp [commitShaped] at h
  | num n => simp [commitShaped] at h
  | str s => simp [commitShaped] at h
  | arr a => simp [commitShaped] at h

theorem exceptMapM_ok_of_all {α β : Type} {f : α → Except PyErr β} :
    ∀ {l : List α}, (∀ x ∈ l, ∃ y, f x = .ok y) →
      ∃ out, exceptMapM f l = .ok out ∧ out.length = l.length := by
  intro l
  induction l with
  | nil => exact fun _ => ⟨[], rfl, rfl⟩
  | cons x xs ih =>
    intro h
    obtain ⟨y, hy⟩ := h x (List.mem_cons_self x xs)
    obtain ⟨ys, hys, hlen⟩ := ih (fun a ha => h a (List.mem_cons_of_mem x ha))
    exact ⟨y :: ys, by simp [exceptMapM, hy, hys, ebind_ok], by simp [hlen]⟩

theorem filter_commit_repoField (a b : Json) :
    List.filter isCommitFieldB [repoField a b] = [] := rfl

theorem filter_commit_compareField (d : Json) (b : Bool) :
    List.filter isCommitFieldB (if b = true then [compareField d] else []) = [] := by
  cases b <;> rfl

/-- Closed form of the embed built from a GitHub-shaped object payload, in
terms of the (possibly defaulted) `repository`, `pusher`, `commits` and
`ref` values. -/
theorem buildEmbed_shaped_eq (now : Nat) (fs rf pf : List (Str × Json)) (cs : List Json)
    (r : Str) (cfs : List EmbedField)
    (hrf : (lookupF fs ("repository".data)).getD (.obj []) = Json.obj rf)
    (hpf : (lookupF fs ("pusher".data)).getD (.obj []) = Json.obj pf)
    (hcs : (lookupF fs ("commits".data)).getD (.arr []) = Json.arr cs)
    (hr : (lookupF fs ("ref".data)).getD (.str []) = Json.str r)
    (hcfs : exceptMapM commitField (cs.take 3) = .ok cfs) :
    buildEmbed now (Json.obj fs) = .ok
      { title := "📦 Push em ".data ++
          pyStrOf ((lookupF rf ("full_name".data)).getD (.str ("Unknown".data)))
        description := "**Branch:** `".data ++ (pyStrOf (Json.str (branchOfRef r)) ++
          ("`\n**Commits:** ".data ++ natStr cs.length))
        color := 0x2ecc71
        timestamp := now
        url := (lookupF rf ("html_url".data)).getD (.str [])
        authorName := (lookupF pf ("name".data)).getD (.str ("Unknown".data))
        authorIcon := (lookupF pf ("avatar_url".data)).getD (.str [])
        fields := [repoField ((lookupF rf ("full_name".data)).getD (.str ("Unknown".data)))
            ((lookupF rf ("html_url".data)).getD (.str []))]
          ++ (if (fs.any (fun q => q.1 == ("compare".data))) = true then
                [compareField (Json.obj fs)] else [])
          ++ cfs
          ++ (if 3 < cs.length then [moreField cs.length] else [])
        footer := "Push por ".data ++
          pyStrOf ((lookupF pf ("name".data)).getD (.str ("Unknown".data))) } := by
  have hb : ((if strContainsSub ("/".data) r = true then
      Except.ok (Json.str ((pySplitChar (Char.ofNat 47) r).getLastD []))
    else Except.ok (Json.str r)) : Except PyErr Json) = .ok (Json.str (branchOfRef r)) := by
    unfold branchOfRef
    by_cases hsl : strContainsSub ("/".data) r = true
    · rw [if_pos hsl, if_pos hsl]
    · rw [if_neg hsl, if_neg hsl]
  simp only [buildEmbed, pyGet_obj, hrf, hpf, hcs, hr, ebind_ok, pyContains_str,
    pyContains_obj, pyLen_arr, pySliceTo_arr, pyIter_arr, pyStrSplit_str, hb, hcfs]

/-- C9: push processing is total on GitHub-shaped payloads: whenever the
`repository`, `pusher`, `commits` and `ref` fields are each absent or of the
GitHub type, the formatter succeeds and (with the channel resolved and the
send succeeding) a message is delivered; an absent `repository` degrades the
title to `Unknown`, an absent `pusher` degrades the author to `Unknown`, and
an absent `commits` yields zero commit fields. -/
theorem push_processing_total :
    ∀ (now : Nat) (fs : List (Str × Json)), githubShaped fs = true →
      isOkE (buildEmbed now (Json.obj fs)) = true ∧
      outcomeSent (process_github_push now true false (Json.obj fs)) = true ∧
      (lookupF fs ("repository".data) = none →
        embedTitleOf (buildEmbed now (Json.obj fs)) = some ("📦 Push em Unknown".data)) ∧
      (lookupF fs ("pusher".data) = none →
        embedAuthorOf (buildEmbed now (Json.obj fs)) = some (.str ("Unknown".data))) ∧
      (lookupF fs ("commits".data) = none →
        embedCommitFieldCountOf (buildEmbed now (Json.obj fs)) = some 0) := by
  intro now fs h
  simp only [githubShaped, Bool.and_eq_true] at h
  obtain ⟨⟨⟨hrep, hpus⟩, hcom⟩, href⟩ := h
  obtain ⟨rf, hrf⟩ := objOrAbsent_getD hrep
  obtain ⟨pf, hpf⟩ := objOrAbsent_getD hpus
  obtain ⟨cs, hcs, hcsAll⟩ := commitsShaped_getD hcom
  obtain ⟨r, hr⟩ := strOrAbsent_getD href
  have hcfAll : ∀ x ∈ cs.take 3, ∃ y, commitField x = .ok y := by
    intro x hx
    exact commitField_ok (List.all_eq_true.mp hcsAll x hx)
  obtain ⟨cfs, hcfs, hcfsLen⟩ := exceptMapM_ok_of_all hcfAll
  have hbuild := buildEmbed_shaped_eq now fs rf pf cs r cfs hrf hpf hcs hr hcfs
  refine ⟨?_, ?_, ?_, ?_, ?_⟩
  · rw [hbuild]
    rfl
  · unfold process_github_push
    rw [hbuild]
    rfl
  · intro hnone
    rw [hnone, Option.getD_none] at hrf
    injection hrf with hrf2
    subst hrf2
    rw [hbuild]
    rfl
  · intro hnone
    rw [hnone, Option.getD_none] at hpf
    injection hpf with hpf2
    subst hpf2
    rw [hbuild]
    rfl
  · intro hnone
    rw [hnone, Option.getD_none] at hcs
    injection hcs with hcs2
    subst hcs2
    have hcfs0 : cfs = [] := by
      rw [show exceptMapM commitField (List.take 3 ([] : List Json)) =
        (.ok [] : Except PyErr (List EmbedField)) from rfl] at hcfs
      injection hcfs with h2
      exact h2.symm
    subst hcfs0
    rw [hbuild]
    simp only [embedCommitFieldCountOf, List.filter_append, filter_commit_repoField,
      filter_commit_compareField]
    rfl

/-- A payload carrying only a slash-free ref: repository, pusher and commits
are all absent. -/
def demoSparseFields : List (Str × Json) := [("ref".data, Json.str ("main".data))]

/-- Witness for C9 on a payload with `repository`, `pusher` and `commits` all
absent. -/
theorem push_processing_total_witness :
    isOkE (buildEmbed 11 (Json.obj demoSparseFields)) = true ∧
    outcomeSent (process_github_push 11 true false (Json.obj demoSparseFields)) = true ∧
    embedTitleOf (buildEmbed 11 (Json.obj demoSparseFields)) =
      some ("📦 Push em Unknown".data) ∧
    embedAuthorOf (buildEmbed 11 (Json.obj demoSparseFields)) =
      some (.str ("Unknown".data)) ∧
    embedCommitFieldCountOf (buildEmbed 11 (Json.obj demoSparseFields)) = some 0 := by
  have h := push_processing_total 11 demoSparseFields (by decide)
  exact ⟨h.1, h.2.1, h.2.2.1 rfl, h.2.2.2.1 rfl, h.2.2.2.2 rfl⟩
